import Mathlib

/-!
Verification of the grid-classification engine of the `DataService` class
(`src/taskpane` add-in code).  The JavaScript source is shallowly embedded:
Excel cell values become the sum type `JSVal`, the three input grids become
`List (List _)` values (wrapped in `Option` where the source checks for an
absent grid), and each method of `DataService` becomes a Lean function of the
same name.  JavaScript host builtins used by the source (`parseFloat`,
`Number` coercion inside `isNaN`, `Date.parse`, `String.prototype.trim`,
`toLowerCase`) are modelled by executable functions on the decimal / ASCII
fragment the grids use.
-/

/-- A JavaScript value as it appears in an Excel values/formulas grid:
`null`, `undefined`, a boolean, a (finite) number — modelled as a rational,
since Excel cell numbers are finite doubles — or a string. -/
inductive JSVal where
  | null
  | undefv
  | bool (b : Bool)
  | num (q : ℚ)
  | str (s : String)
deriving DecidableEq, Repr

/-- The seven semantic cell-type tags produced by `detectCellType`. -/
inductive CellType where
  | empty
  | boolean
  | number
  | currency
  | percentage
  | date
  | text
deriving DecidableEq, Repr

/-- JavaScript truthiness restricted to the values of `JSVal`:
`null`/`undefined` are falsy, a boolean is itself, a number is truthy iff
nonzero, a string is truthy iff nonempty. -/
def jsTruthy : JSVal → Bool
  | .null => false
  | .undefv => false
  | .bool b => b
  | .num q => decide (q ≠ 0)
  | .str s => decide (s ≠ "")

/-- Numeric value of a list of decimal digit characters. -/
def digitsVal (l : List Char) : ℕ :=
  l.foldl (fun a c => a * 10 + (c.toNat - 48)) 0

/-- Models `String.prototype.trim` on the ASCII fragment: drop leading and
trailing whitespace characters. -/
def trimL (l : List Char) : List Char :=
  ((l.dropWhile Char.isWhitespace).reverse.dropWhile Char.isWhitespace).reverse

/-- String version of `trimL`. -/
def trimStr (s : String) : String :=
  String.mk (trimL s.toList)

/-- Models `String.prototype.toLowerCase` on the ASCII fragment. -/
def lowerStr (s : String) : String :=
  String.mk (s.toList.map Char.toLower)

/-- Function `startsW s pat` models `s.startsWith(pat)` / an anchored regex match. -/
def startsW (s pat : String) : Bool :=
  pat.toList.isPrefixOf s.toList

/-- Function `listContainsSub hay pat`: `pat` occurs as a contiguous run inside `hay`
(the semantics of an unanchored regex-literal / `String.prototype.includes`
test). -/
def listContainsSub (hay pat : List Char) : Bool :=
  match hay with
  | [] => pat.isEmpty
  | _ :: rest => pat.isPrefixOf hay || listContainsSub rest pat

/-- Function `strContains s pat` models `s.includes(pat)` and unanchored
case-sensitive regex substring tests. -/
def strContains (s pat : String) : Bool :=
  listContainsSub s.toList pat.toList

/-- Unsigned decimal literal: `"123"`, `"123.45"`, `".5"`, `"5."`.
Returns `none` when the character list is not entirely such a literal. -/
def decLit (l : List Char) : Option ℚ :=
  let intPart := l.takeWhile Char.isDigit
  let rest := l.dropWhile Char.isDigit
  match rest with
  | [] => if intPart.isEmpty then none else some (digitsVal intPart)
  | '.' :: frac =>
    if frac.all Char.isDigit ∧ (¬ intPart.isEmpty ∨ ¬ frac.isEmpty) then
      some ((digitsVal intPart : ℚ) + (digitsVal frac : ℚ) / 10 ^ frac.length)
    else none
  | _ => none

/-- Models the ECMAScript `ToNumber` coercion applied to a string (the
coercion performed by `isNaN(s)` and `isFinite(s)`), on the signed decimal
fragment: the whole (trimmed) string must be a decimal literal; the empty or
all-whitespace string converts to `0`; `none` plays the role of `NaN`. -/
def jsToNumber (s : String) : Option ℚ :=
  match trimL s.toList with
  | [] => some 0
  | '-' :: rest => (decLit rest).map (fun q => -q)
  | '+' :: rest => decLit rest
  | l => decLit l

/-- Longest decimal-literal prefix of a character list (the scan performed by
`parseFloat` after an optional sign); `none` when no digit can be consumed. -/
def decPrefix (l : List Char) : Option ℚ :=
  let intPart := l.takeWhile Char.isDigit
  let rest := l.dropWhile Char.isDigit
  match rest with
  | '.' :: rest2 =>
    let frac := rest2.takeWhile Char.isDigit
    if intPart.isEmpty ∧ frac.isEmpty then none
    else some ((digitsVal intPart : ℚ) + (digitsVal frac : ℚ) / 10 ^ frac.length)
  | _ => if intPart.isEmpty then none else some (digitsVal intPart)

/-- Models the `parseFloat` builtin on a string: skip leading whitespace,
optional sign, then the longest decimal-literal prefix; `none` is `NaN`. -/
def parseFloatStr (s : String) : Option ℚ :=
  match s.toList.dropWhile Char.isWhitespace with
  | '-' :: rest => (decPrefix rest).map (fun q => -q)
  | '+' :: rest => decPrefix rest
  | l => decPrefix l

/-- Models `parseFloat(value)` on a grid value: `parseFloat` first coerces its
argument to a string, so a number parses to itself while `null`, `undefined`
and booleans stringify to the non-numeric words `"null"`, `"undefined"`,
`"true"`, `"false"` and yield `NaN` (`none`). -/
def jsParseFloat : JSVal → Option ℚ
  | .num q => some q
  | .str s => parseFloatStr s
  | _ => none

/-- Modelled from the spec: the host `Date.parse` builtin used by
`detectCellType` ("string parseable as a calendar date"), restricted to ISO
`YYYY-MM-DD` strings with a plausible month and day. -/
def jsDateParseOk (s : String) : Bool :=
  match s.toList with
  | [y1, y2, y3, y4, '-', m1, m2, '-', d1, d2] =>
    y1.isDigit && y2.isDigit && y3.isDigit && y4.isDigit &&
    m1.isDigit && m2.isDigit && d1.isDigit && d2.isDigit &&
    (let m := (m1.toNat - 48) * 10 + (m2.toNat - 48)
     let d := (d1.toNat - 48) * 10 + (d2.toNat - 48)
     decide (1 ≤ m) && decide (m ≤ 12) && decide (1 ≤ d) && decide (d ≤ 31))
  | _ => false

/-- The quarter-label regex `/^[1-4]Q\d{2}$/i`: one digit 1–4, the letter Q in
either case, exactly two digits. -/
def quarterPat (s : String) : Bool :=
  match s.toList with
  | [a, q, b, c] =>
    decide ('1' ≤ a) && decide (a ≤ '4') && (q == 'Q' || q == 'q') &&
    b.isDigit && c.isDigit
  | _ => false

/-- Out-of-bounds-tolerant lookup into an optional 2-D grid: models the
JavaScript chain `g && g[ri] && g[ri][ci]` (an absent grid, row or cell reads
as `undefined`, here `none`). -/
def gridLookup {α : Type} (g : Option (List (List α))) (ri ci : ℕ) : Option α :=
  match g with
  | none => none
  | some rows =>
    match rows.get? ri with
    | none => none
    | some row => row.get? ci

/-- The number-format string at a grid position, when present. -/
def fmtLookup (nf : Option (List (List String))) (ri ci : ℕ) : Option String :=
  gridLookup nf ri ci

/-- Method `detectCellType` (source lines 435–456): the per-cell semantic type
decision table.  The guard `if (format)` is JavaScript truthiness, so an
absent or empty format string skips the format-marker checks. -/
def detectCellType (value : JSVal) (format : Option String) : CellType :=
  if value = .null ∨ value = .undefv ∨ value = .str "" then .empty
  else
    match value with
    | .bool _ => .boolean
    | .num _ =>
      (match format with
       | some f =>
         if f ≠ "" then
           if strContains f "$" || strContains f "currency" then .currency
           else if strContains f "%" then .percentage
           else if strContains f "d" || strContains f "m" || strContains f "y" then .date
           else .number
         else .number
       | none => .number)
    | .str s =>
      if jsDateParseOk s then .date
      else if (jsParseFloat (.str s)).isSome && (jsToNumber s).isSome then .number
      else .text
    | _ => .text

/-- Written from the spec's words (§4.1): "null/undefined/empty string →
empty; boolean-typed value → boolean; numeric value: currency marker →
currency, else percent marker → percentage, else date-component letters
(d/m/y) → date, else number; string value: parseable as a calendar date →
date, else parseable as a finite number → number, else text"; any other value
→ text. -/
def detectCellTypeSpec (value : JSVal) (format : Option String) : CellType :=
  if value = .null ∨ value = .undefv ∨ value = .str "" then .empty
  else
    match value with
    | .bool _ => .boolean
    | .num _ =>
      if (match format with | some f => strContains f "$" || strContains f "currency" | none => false) then .currency
      else if (match format with | some f => strContains f "%" | none => false) then .percentage
      else if (match format with | some f => strContains f "d" || strContains f "m" || strContains f "y" | none => false) then .date
      else .number
    | .str s =>
      if jsDateParseOk s then .date
      else if (jsParseFloat (.str s)).isSome && (jsToNumber s).isSome then .number
      else .text
    | _ => .text

/-- The `types` accumulator object of `analyzeDataTypes` (source line 419):
six counters, one per non-empty type tag.  There is no `empty` field, exactly
as the source object has no `empty` key. -/
structure TypeHist where
  text : ℕ
  number : ℕ
  date : ℕ
  currency : ℕ
  percentage : ℕ
  boolean : ℕ
deriving DecidableEq, Repr

/-- The all-zero histogram the fold starts from. -/
def emptyHist : TypeHist := ⟨0, 0, 0, 0, 0, 0⟩

/-- Increment `types[detectedType]++` guarded by `types.hasOwnProperty(detectedType)`
(source lines 425–427): the six non-empty tags increment their counter, the
`empty` tag has no key and is dropped. -/
def bumpHist (h : TypeHist) : CellType → TypeHist
  | .text => { h with text := h.text + 1 }
  | .number => { h with number := h.number + 1 }
  | .date => { h with date := h.date + 1 }
  | .currency => { h with currency := h.currency + 1 }
  | .percentage => { h with percentage := h.percentage + 1 }
  | .boolean => { h with boolean := h.boolean + 1 }
  | .empty => h

/-- Sum of all counters of the histogram. -/
def sumHist (h : TypeHist) : ℕ :=
  h.text + h.number + h.date + h.currency + h.percentage + h.boolean

/-- Inner `forEach` of `analyzeDataTypes`: classify the cells of row `ri`
starting at column `ci`, updating the histogram. -/
def analyzeRowCells (nf : Option (List (List String))) (ri : ℕ) :
    ℕ → TypeHist → List JSVal → TypeHist
  | _, h, [] => h
  | ci, h, c :: rest =>
    analyzeRowCells nf ri (ci + 1) (bumpHist h (detectCellType c (fmtLookup nf ri ci))) rest

/-- Outer `forEach` of `analyzeDataTypes` over the rows. -/
def analyzeRowsHist (nf : Option (List (List String))) :
    ℕ → TypeHist → List (List JSVal) → TypeHist
  | _, h, [] => h
  | ri, h, row :: rest => analyzeRowsHist nf (ri + 1) (analyzeRowCells nf ri 0 h row) rest

/-- Method `analyzeDataTypes` (source lines 418–432): fold `detectCellType` over
every grid position into the six-key histogram. -/
def analyzeDataTypes (rawValues : List (List JSVal)) (numberFormats : Option (List (List String))) :
    TypeHist :=
  analyzeRowsHist numberFormats 0 emptyHist rawValues

/-- Written from the amended claim's words: the number of cells of one row
(starting at column `ci`) whose detected type is not `empty`. -/
def countRowNonEmpty (nf : Option (List (List String))) (ri : ℕ) : ℕ → List JSVal → ℕ
  | _, [] => 0
  | ci, c :: rest =>
    (if detectCellType c (fmtLookup nf ri ci) ≠ .empty then 1 else 0) +
      countRowNonEmpty nf ri (ci + 1) rest

/-- Written from the amended claim's words: the number of grid cells whose
detected type is not `empty`, rows numbered from `ri`. -/
def countGridNonEmpty (nf : Option (List (List String))) : ℕ → List (List JSVal) → ℕ
  | _, [] => 0
  | ri, row :: rest => countRowNonEmpty nf ri 0 row + countGridNonEmpty nf (ri + 1) rest

/-- A cell of the `cleanData` intermediate grid (source lines 284–301):
`null`/`undefined` become the empty string, strings are trimmed, and every
other value is wrapped in the classified-cell object carrying its format,
formula flag and detected type. -/
inductive CleanCell where
  | plain (s : String)
  | classified (value : JSVal) (format : Option String) (isFormulaCell : Bool) (detectedType : CellType)
deriving DecidableEq, Repr

/-- Unwrap `typeof cell === 'object' ? cell.value : cell`. -/
def unwrapCell : CleanCell → JSVal
  | .plain s => .str s
  | .classified v _ _ _ => v

/-- The formula flag of a clean cell (`typeof cell === 'object' && cell.isFormula`). -/
def cellIsFormula : CleanCell → Bool
  | .classified _ _ f _ => f
  | .plain _ => false

/-- Project `typeof cell === 'object' ? cell.detectedType : 'text'`. -/
def cellDetType : CleanCell → CellType
  | .classified _ _ _ t => t
  | .plain _ => .text

/-- The `isFormula` field of a classified cell (source lines 295–297): the
formula grid holds a string starting with `=` at this position. -/
def isFormulaAt (rf : Option (List (List JSVal))) (ri ci : ℕ) : Bool :=
  match gridLookup rf ri ci with
  | some (.str s) => startsW s "="
  | _ => false

/-- One cell of the `cleanData` map (source lines 285–300). -/
def cleanCell (rf : Option (List (List JSVal))) (nf : Option (List (List String)))
    (ri ci : ℕ) (cell : JSVal) : CleanCell :=
  match cell with
  | .null => .plain ""
  | .undefv => .plain ""
  | .str s => .plain (trimStr s)
  | v =>
    let format := fmtLookup nf ri ci
    .classified v format (isFormulaAt rf ri ci) (detectCellType v format)

/-- One row of the `cleanData` map, columns numbered from `ci`. -/
def cleanRowCells (rf : Option (List (List JSVal))) (nf : Option (List (List String)))
    (ri : ℕ) : ℕ → List JSVal → List CleanCell
  | _, [] => []
  | ci, c :: rest => cleanCell rf nf ri ci c :: cleanRowCells rf nf ri (ci + 1) rest

/-- The rows of the `cleanData` map, numbered from `ri`. -/
def cleanRows (rf : Option (List (List JSVal))) (nf : Option (List (List String))) :
    ℕ → List (List JSVal) → List (List CleanCell)
  | _, [] => []
  | ri, row :: rest => cleanRowCells rf nf ri 0 row :: cleanRows rf nf (ri + 1) rest

/-- The `cleanData` grid of `analyzeAdvancedTableStructure` (source lines
284–301). -/
def cleanData (rawValues : List (List JSVal)) (rf : Option (List (List JSVal)))
    (nf : Option (List (List String))) : List (List CleanCell) :=
  cleanRows rf nf 0 rawValues

/-- The quarter-pattern cell count of a header-candidate row (source lines
464–467): cells whose unwrapped value is a string matching the quarter
regex. -/
def quarterCellCount (row : List CleanCell) : ℕ :=
  (row.filter fun c =>
    match unwrapCell c with
    | .str s => quarterPat s
    | _ => false).length

/-- The text-cell count of a header-candidate row (source lines 472–475):
cells whose unwrapped value is a nonempty string for which `isNaN(val)` holds
(its `Number` coercion is `NaN`). -/
def textCellCount (row : List CleanCell) : ℕ :=
  (row.filter fun c =>
    match unwrapCell c with
    | .str s => decide (0 < s.length) && (jsToNumber s).isNone
    | _ => false).length

/-- The loop body of `findHeaderRow` (source lines 460–478), over the list of
row indices still to scan: return the current index as soon as one of the two
rules fires on its row, else `0` after the last scanned index. -/
def findHeaderRowGo (cd : List (List CleanCell)) : List ℕ → ℕ
  | [] => 0
  | i :: rest =>
    let row := (cd.get? i).getD []
    if 2 ≤ quarterCellCount row then i
    else if 3 ≤ textCellCount row then i
    else findHeaderRowGo cd rest

/-- Method `findHeaderRow` (source lines 459–481): the loop
`for (let i = 0; i < Math.min(5, cleanData.length); i++)` with default `0`. -/
def findHeaderRow (cd : List (List CleanCell)) : ℕ :=
  findHeaderRowGo cd (List.range (min 5 cd.length))

/-- Written from the spec's words (§5.5 / claim C5): row `i` "satisfies
either: (a) at least 2 cells whose value matches the quarter-label pattern,
or (b) at least 3 cells whose value is a non-empty string that does not parse
as a number". -/
def headerRuleFires (cd : List (List CleanCell)) (i : ℕ) : Bool :=
  let row := (cd.get? i).getD []
  decide (2 ≤ quarterCellCount row) || decide (3 ≤ textCellCount row)

/-- Method `isLikelyTotalRow` (source lines 546–550): the trimmed label matches
`/^(total|sum|grand total|net|aggregate|consolidated)/i`; non-strings are
rejected by the `typeof` guard. -/
def isLikelyTotalRow : JSVal → Bool
  | .str s =>
    let t := lowerStr (trimStr s)
    startsW t "total" || startsW t "sum" || startsW t "grand total" ||
    startsW t "net" || startsW t "aggregate" || startsW t "consolidated"
  | _ => false

/-- Method `isLikelySubtotalRow` (source lines 552–556): the trimmed label matches
`/subtotal|sub-total|sub total/i` anywhere. -/
def isLikelySubtotalRow : JSVal → Bool
  | .str s =>
    let t := lowerStr (trimStr s)
    strContains t "subtotal" || strContains t "sub-total" || strContains t "sub total"
  | _ => false

/-- Method `isKeyFinancialRow` (source lines 484–497): the label matches one of the
six key-financial regex alternates anywhere, case-insensitively. -/
def isKeyFinancialRow : JSVal → Bool
  | .str s =>
    let t := lowerStr s
    strContains t "revenue" || strContains t "sales" || strContains t "income" ||
    strContains t "expense" || strContains t "cost" || strContains t "opex" ||
    strContains t "capex" ||
    strContains t "profit" || strContains t "loss" || strContains t "ebitda" ||
    strContains t "ebit" ||
    strContains t "cash" || strContains t "flow" || strContains t "fcf" ||
    strContains t "margin" || strContains t "ratio" ||
    strContains t "growth" || strContains t "change"
  | _ => false

/-- Method `categorizeRowLabel` (source lines 558–561): `'data'` for a non-string
label, otherwise the trimmed label itself. -/
def categorizeRowLabel : JSVal → String
  | .str s => trimStr s
  | _ => "data"

/-- Method `hasQuarterlyPattern` (source lines 500–502).  The source tests
`/^[1-4]Q\d{2}$/i.test(String(h))`; the string coercion of a non-string value
(number, boolean, null) never contains the letter Q, so only string headers
can match. -/
def hasQuarterlyPattern (headers : List JSVal) : Bool :=
  headers.any fun h =>
    match h with
    | .str s => quarterPat s
    | _ => false

/-- One point of a quarterly series (source lines 570–574). -/
structure QuarterEntry where
  quarter : String
  value : JSVal
  columnIndex : ℕ
deriving DecidableEq, Repr

/-- The label of a clean row: `row[0]` unwrapped; an absent cell (empty row)
reads as `undefined`. -/
def rowLabelOf (row : List CleanCell) : JSVal :=
  match row.get? 0 with
  | some c => unwrapCell c
  | none => .undefv

/-- A materialized data row (source lines 328–342). -/
structure RowData where
  rowIndex : ℕ
  label : JSVal
  values : List JSVal
  originalRow : List CleanCell
  isTotal : Bool
  isSubtotal : Bool
  category : String
  hasFormulas : Bool
  dataTypes : List CellType
deriving DecidableEq, Repr

/-- The `rowData` record built for row `i` (source lines 328–342). -/
def mkRowData (i : ℕ) (row : List CleanCell) : RowData :=
  { rowIndex := i
    label := rowLabelOf row
    values := (row.drop 1).map unwrapCell
    originalRow := row
    isTotal := isLikelyTotalRow (rowLabelOf row)
    isSubtotal := isLikelySubtotalRow (rowLabelOf row)
    category := categorizeRowLabel (rowLabelOf row)
    hasFormulas := row.any cellIsFormula
    dataTypes := row.map cellDetType }

/-- JavaScript array indexing with a possibly negative index:
`values[i]` is `undefined` off either end. -/
def jsIndexGet (l : List JSVal) (i : ℤ) : JSVal :=
  if i < 0 then .undefv
  else ((l.get? i.toNat).getD .undefv)

/-- A quarterly series row (source lines 579–584). -/
structure QuarterlyRow where
  label : JSVal
  labelType : String
  quarters : List QuarterEntry
  isTotal : Bool
deriving DecidableEq, Repr

/-- The `headers.forEach` loop of `extractQuarterlyData` (source lines
566–577), header columns numbered from `idx`.  `values[index - 1]` at
`index = 0` reads `values[-1]`, i.e. `undefined`, and is dropped by the
presence check. -/
def extractQuarters (values : List JSVal) : ℕ → List JSVal → List QuarterEntry
  | _, [] => []
  | idx, h :: rest =>
    let tail := extractQuarters values (idx + 1) rest
    match h with
    | .str hs =>
      if quarterPat hs then
        let value := jsIndexGet values ((idx : ℤ) - 1)
        if value = .null ∨ value = .undefv ∨ value = .str "" then tail
        else
          { quarter := hs
            value := match jsParseFloat value with
              | some q => if q = 0 then value else .num q
              | none => value
            columnIndex := idx } :: tail
      else tail
    | _ => tail

/-- Method `extractQuarterlyData` (source lines 563–585). -/
def extractQuarterlyData (rowData : RowData) (headers : List JSVal) : QuarterlyRow :=
  { label := rowData.label
    labelType := rowData.category
    quarters := extractQuarters rowData.values 0 headers
    isTotal := rowData.isTotal }

/-- Written from the amended claim's words: the value recorded for a quarter
column is the parsed floating-point number when `parseFloat` succeeds with a
nonzero result, and the raw value unchanged when parsing fails or yields `0`
(the `parseFloat(value) || value` idiom treats `0` as falsy). -/
def numericOrRaw (v : JSVal) : JSVal :=
  match jsParseFloat v with
  | some q => if q = 0 then v else .num q
  | none => v

/-- Written from the claim's words: the value at a quarter column is present
and non-empty (not `null`, not `undefined`, not the empty string). -/
def presentNonEmpty (v : JSVal) : Bool :=
  !(v == .null) && !(v == .undefv) && !(v == .str "")

/-- Written from the amended claim's words, for one enumerated header column
`(j, header)`: when the header matches the quarter pattern and the value
`row.values[j-1]` is present and non-empty, the series point
`(headerValue, numericOrRaw, j)`; otherwise nothing. -/
def quarterPointFn (values : List JSVal) (p : ℕ × JSVal) : Option QuarterEntry :=
  match p.2 with
  | .str hs =>
    if quarterPat hs ∧ presentNonEmpty (jsIndexGet values ((p.1 : ℤ) - 1)) = true then
      some ⟨hs, numericOrRaw (jsIndexGet values ((p.1 : ℤ) - 1)), p.1⟩
    else none
  | _ => none

/-- Written from the amended claim's words: for each header column index `j`
whose header matches the quarter pattern and whose value `row.values[j-1]` is
present and non-empty, the triple `(headerValue, numericOrRaw, j)` — no
matching column dropped, none defaulted to zero. -/
def quarterSeriesSpec (values : List JSVal) (headers : List JSVal) : List QuarterEntry :=
  headers.enum.filterMap (quarterPointFn values)

/-- The accumulated lists of the row-processing loop of
`analyzeAdvancedTableStructure` (source lines 316–363). -/
structure BuildRes where
  dataRows : List RowData
  keyRows : List RowData
  totalRows : List RowData
  quarterlyData : List QuarterlyRow
  rowLabels : List JSVal
deriving DecidableEq, Repr

/-- The row-processing loop (source lines 316–363), rows numbered from `i`:
a row with a falsy label (`!rowLabel || rowLabel === ''`) is skipped
entirely; otherwise its `rowData` joins `dataRows`, `keyRows` when it is a
total or key-financial row, `totalRows` when it is a total row, and — when
the column headers show a quarterly pattern — a nonempty extracted quarterly
series joins `quarterlyData`. -/
def buildRows (hdrs : List JSVal) : ℕ → List (List CleanCell) → BuildRes
  | _, [] => ⟨[], [], [], [], []⟩
  | i, row :: rest =>
    let r := buildRows hdrs (i + 1) rest
    if jsTruthy (rowLabelOf row) then
      let rd := mkRowData i row
      let q := extractQuarterlyData rd hdrs
      { dataRows := rd :: r.dataRows
        keyRows := if rd.isTotal || isKeyFinancialRow (rowLabelOf row) then rd :: r.keyRows else r.keyRows
        totalRows := if rd.isTotal then rd :: r.totalRows else r.totalRows
        quarterlyData :=
          if hasQuarterlyPattern hdrs then
            (if 0 < q.quarters.length then q :: r.quarterlyData else r.quarterlyData)
          else r.quarterlyData
        rowLabels := rowLabelOf row :: r.rowLabels }
    else r

/-- The formula statistics record (source lines 390–394). -/
structure FormulaRes where
  hasFormulas : Bool
  formulaCount : ℕ
  types : List String
deriving DecidableEq, Repr

/-- Insertion-order set insertion (a JavaScript `Set` keeps first insertion
order). -/
def insertNew (l : List String) (s : String) : List String :=
  if s ∈ l then l else l ++ [s]

mutual

/-- The matches of `/([A-Z]+)\(/g` over a formula string (source line 380):
every maximal run of uppercase letters immediately followed by an opening
parenthesis, in order, parenthesis dropped. -/
def scanFnNames : List Char → List String
  | [] => []
  | c :: rest =>
    if c.isUpper then scanUpperRun [c] rest
    else scanFnNames rest

/-- Helper of `scanFnNames`: extend the current uppercase run `run`. -/
def scanUpperRun (run : List Char) : List Char → List String
  | [] => []
  | c :: rest =>
    if c.isUpper then scanUpperRun (run ++ [c]) rest
    else if c = '(' then String.mk run :: scanFnNames rest
    else scanFnNames rest

end

/-- Method `analyzeFormulas` (source lines 369–395). -/
def analyzeFormulas (rf : Option (List (List JSVal))) : FormulaRes :=
  match rf with
  | none => ⟨false, 0, []⟩
  | some rows =>
    let step := fun (acc : ℕ × List String) (cell : JSVal) =>
      match cell with
      | .str s =>
        if startsW s "=" then (acc.1 + 1, (scanFnNames s.toList).foldl insertNew acc.2)
        else acc
      | _ => acc
    let r : ℕ × List String := rows.foldl (fun acc row => row.foldl step acc) (0, [])
    ⟨decide (0 < r.1), r.1, r.2⟩

/-- The format statistics record (source lines 411–414). -/
structure FormatRes where
  hasFormatting : Bool
  types : List String
deriving DecidableEq, Repr

/-- Method `analyzeNumberFormats` (source lines 398–415): collect every format
string that is truthy and not `"General"`, deduplicated in first-appearance
order. -/
def analyzeNumberFormats (nf : Option (List (List String))) : FormatRes :=
  match nf with
  | none => ⟨false, []⟩
  | some rows =>
    let ts := rows.foldl
      (fun acc row => row.foldl
        (fun acc2 f => if f ≠ "" ∧ f ≠ "General" then insertNew acc2 f else acc2) acc) []
    ⟨decide (0 < ts.length), ts⟩

/-- The result record of `analyzeAdvancedTableStructure` (source lines
264–281).  The early-return empty variant (line 266) is a JavaScript object
carrying only `type`, `headers`, `dataRows` and `keyRows`; its remaining
fields are absent (`undefined`) and rendered here as empty defaults. -/
structure TableResult where
  rtype : String
  headers : List JSVal
  columnHeaders : List JSVal
  dataRows : List RowData
  keyRows : List RowData
  totalRows : List RowData
  quarterlyData : List QuarterlyRow
  rowLabels : List JSVal
  formulaAnalysis : FormulaRes
  formatAnalysis : FormatRes
  dataTypes : TypeHist
deriving DecidableEq, Repr

/-- The `{ type: 'empty', headers: [], dataRows: [], keyRows: [] }` early
return (source line 266). -/
def emptyTableResult : TableResult :=
  { rtype := "empty", headers := [], columnHeaders := [], dataRows := [], keyRows := []
    totalRows := [], quarterlyData := [], rowLabels := []
    formulaAnalysis := ⟨false, 0, []⟩, formatAnalysis := ⟨false, []⟩, dataTypes := emptyHist }

/-- Method `analyzeAdvancedTableStructure` (source lines 264–366).  `rawValues` is
optional because the source guards `!rawValues`; the `headers` field of the
result is initialized to `[]` and never filled (only `columnHeaders` is). -/
def analyzeAdvancedTableStructure (rawValues : Option (List (List JSVal)))
    (rawFormulas : Option (List (List JSVal))) (numberFormats : Option (List (List String))) :
    TableResult :=
  match rawValues with
  | none => emptyTableResult
  | some vals =>
    if vals.isEmpty then emptyTableResult
    else
      let cd := cleanData vals rawFormulas numberFormats
      let h := findHeaderRow cd
      let columnHeaders := ((cd.get? h).getD []).map unwrapCell
      let b := buildRows columnHeaders 0 cd
      { rtype := "advanced_financial_table"
        headers := []
        columnHeaders := columnHeaders
        dataRows := b.dataRows
        keyRows := b.keyRows
        totalRows := b.totalRows
        quarterlyData := b.quarterlyData
        rowLabels := b.rowLabels
        formulaAnalysis := analyzeFormulas rawFormulas
        formatAnalysis := analyzeNumberFormats numberFormats
        dataTypes := analyzeDataTypes vals numberFormats }

/-- Constant `CONFIG.MAX_ANALYSIS_CELLS` (source line 8). -/
def MAX_ANALYSIS_CELLS : ℕ := 100000

/-- The range finally handed to classification: either the full grid or the
top-left sampled block, with its row/column counts. -/
inductive RangeChoice where
  | full (rows cols : ℕ)
  | sampled (rows cols : ℕ)
deriving DecidableEq, Repr

/-- The dimension arithmetic of `getSmartSampledRange` (source lines
145–203): `maxSampleRows = min(floor(sqrt(budget)), totalRows)` and
`sampleCols = min(min(floor(budget / maxSampleRows), totalCols), totalCols)`;
the returned range is the top-left `A1 : col(sampleCols) row(maxSampleRows)`
block.  (`Nat.sqrt` is the floor of `Math.sqrt` on a perfect-precision
integer.)  The composite header/middle/footer range list the source also
computes (lines 163–190) is discarded by the `return` of the simplified
top-left block and does not influence the result. -/
def getSmartSampledDims (totalRows totalCols : ℕ) : RangeChoice :=
  let maxSampleRows := min (Nat.sqrt MAX_ANALYSIS_CELLS) totalRows
  let maxSampleCols := min (MAX_ANALYSIS_CELLS / maxSampleRows) totalCols
  let sampleCols := min maxSampleCols totalCols
  .sampled maxSampleRows sampleCols

/-- The sampling trigger of `readCurrentWorksheetDataEnhanced` (source lines
62–79): a range of at most `MAX_ANALYSIS_CELLS` cells is used in full,
otherwise `getSmartSampledRange` selects the sampled block. -/
def chooseAnalysisRange (rows cols : ℕ) : RangeChoice :=
  if rows * cols ≤ MAX_ANALYSIS_CELLS then .full rows cols
  else getSmartSampledDims rows cols

/-- The `while (columnNumber > 0)` loop of `getColumnLetter` (source lines
588–596) as a character list, with an explicit fuel argument for structural
recursion: one iteration prepends `String.fromCharCode(65 + (n-1) % 26)` and
continues with `(n-1) / 26`.  `getColumnLetter` passes fuel `n`, which
`getColumnLetterGo_fuel_irrelevant`-style reasoning in the proofs shows is
always enough (each iteration at least halves the counter). -/
def getColumnLetterGo : ℕ → ℕ → List Char
  | _, 0 => []
  | 0, _ + 1 => []
  | fuel + 1, n + 1 => getColumnLetterGo fuel (n / 26) ++ [Char.ofNat (65 + n % 26)]

/-- Method `getColumnLetter` (source lines 588–596). -/
def getColumnLetter (n : ℕ) : String :=
  String.mk (getColumnLetterGo n n)

/-- Method `getColumnNumber` (source lines 598–604). -/
def getColumnNumber (s : String) : ℕ :=
  s.toList.foldl (fun acc c => acc * 26 + (c.toNat - 64)) 0

/-! ## Theorems -/

theorem sumHist_bumpHist (h : TypeHist) (t : CellType) :
    sumHist (bumpHist h t) = sumHist h + (if t = .empty then 0 else 1) := by
  cases t <;> simp [bumpHist, sumHist] <;> omega

theorem sumHist_analyzeRowCells (nf : Option (List (List String))) (ri : ℕ) :
    ∀ (l : List JSVal) (ci : ℕ) (h : TypeHist),
      sumHist (analyzeRowCells nf ri ci h l) = sumHist h + countRowNonEmpty nf ri ci l := by
  intro l
  induction l with
  | nil => intro ci h; simp [analyzeRowCells, countRowNonEmpty]
  | cons c rest ih =>
    intro ci h
    rw [analyzeRowCells, countRowNonEmpty, ih, sumHist_bumpHist]
    by_cases he : detectCellType c (fmtLookup nf ri ci) = .empty
    all_goals simp [he]
    all_goals omega

theorem sumHist_analyzeRowsHist (nf : Option (List (List String))) :
    ∀ (rows : List (List JSVal)) (ri : ℕ) (h : TypeHist),
      sumHist (analyzeRowsHist nf ri h rows) = sumHist h + countGridNonEmpty nf ri rows := by
  intro rows
  induction rows with
  | nil => intro ri h; simp [analyzeRowsHist, countGridNonEmpty]
  | cons row rest ih =>
    intro ri h
    rw [analyzeRowsHist, countGridNonEmpty, ih, sumHist_analyzeRowCells]
    omega

/-- C1 (counterexample): on the 1×1 grid holding a single `null` cell the
histogram of `analyzeDataTypes` sums to `0`, not to `rowCount × colCount = 1`:
the `types` object has no `empty` key, so cells classified `empty` are never
counted. -/
theorem c1_counterexample :
    sumHist (analyzeDataTypes [[JSVal.null]] none) = 0 ∧
    sumHist (analyzeDataTypes [[JSVal.null]] none) ≠ 1 * 1 := by
  decide

/-- C1 (amended): for every values grid, `analyzeDataTypes` accumulates
counts for the six non-empty type tags only, and the sum of all its counts
equals the number of cells of the classified grid whose detected type is not
`empty`. -/
theorem c1_histogram_sum (vals : List (List JSVal)) (nf : Option (List (List String))) :
    sumHist (analyzeDataTypes vals nf) = countGridNonEmpty nf 0 vals := by
  rw [analyzeDataTypes, sumHist_analyzeRowsHist]
  simp [emptyHist, sumHist]

/-- C2 (counterexample): for the row labelled `"Total Revenue"`,
`isLikelyTotalRow` is true, yet the row's `category` field — produced by
`categorizeRowLabel` — is the trimmed label `"Total Revenue"`, not the token
`'total'` the claim asserts. -/
theorem c2_counterexample :
    ((analyzeAdvancedTableStructure (some [[.str "Total Revenue", .num 100]]) none none).dataRows.map
      (fun rd => rd.category)) = ["Total Revenue"] ∧
    ((analyzeAdvancedTableStructure (some [[.str "Total Revenue", .num 100]]) none none).dataRows.map
      (fun rd => rd.isTotal)) = [true] ∧
    "Total Revenue" ≠ "total" := by
  decide

theorem presentNonEmpty_iff (v : JSVal) :
    presentNonEmpty v = true ↔ ¬(v = .null ∨ v = .undefv ∨ v = .str "") := by
  simp [presentNonEmpty, not_or, and_assoc]

theorem extractQuarters_eq_spec (values : List JSVal) :
    ∀ (headers : List JSVal) (i : ℕ),
      extractQuarters values i headers = (List.enumFrom i headers).filterMap (quarterPointFn values) := by
  intro headers
  induction headers with
  | nil => intro i; rfl
  | cons h rest ih =>
    intro i
    cases h with
    | str hs =>
      by_cases hq : quarterPat hs
      · by_cases hv : jsIndexGet values ((i : ℤ) - 1) = .null ∨
            jsIndexGet values ((i : ℤ) - 1) = .undefv ∨
            jsIndexGet values ((i : ℤ) - 1) = .str ""
        · have hpe : presentNonEmpty (jsIndexGet values ((i : ℤ) - 1)) = false := by
            rcases hv with h1 | h1 | h1 <;> simp [presentNonEmpty, h1]
          rw [extractQuarters, List.enumFrom, List.filterMap_cons]
          simp [quarterPointFn, hq, hv, hpe, ih]
        · have hpe : presentNonEmpty (jsIndexGet values ((i : ℤ) - 1)) = true :=
            (presentNonEmpty_iff _).mpr hv
          rw [extractQuarters, List.enumFrom, List.filterMap_cons]
          simp [quarterPointFn, hq, hv, hpe, ih, numericOrRaw]
      · rw [extractQuarters, List.enumFrom, List.filterMap_cons]
        simp [quarterPointFn, hq, ih]
    | null =>
      rw [extractQuarters, List.enumFrom, List.filterMap_cons] <;> simp [quarterPointFn, ih]
    | undefv =>
      rw [extractQuarters, List.enumFrom, List.filterMap_cons] <;> simp [quarterPointFn, ih]
    | bool b =>
      rw [extractQuarters, List.enumFrom, List.filterMap_cons] <;> simp [quarterPointFn, ih]
    | num q =>
      rw [extractQuarters, List.enumFrom, List.filterMap_cons] <;> simp [quarterPointFn, ih]

/-- C3 (counterexample): on header `["Label","1Q23"]` and row value `"0"` —
a string that parses to the number `0` — the extracted point keeps the raw
string `"0"` instead of the parsed number: `parseFloat(value) || value`
treats the parsed `0` as falsy, contradicting "the parsed floating-point
number when the value is parseable". -/
theorem c3_counterexample :
    (extractQuarterlyData
      { rowIndex := 0, label := .str "X", values := [.str "0"],
        originalRow := [], isTotal := false, isSubtotal := false,
        category := "X", hasFormulas := false, dataTypes := [] }
      [.str "Label", .str "1Q23"]).quarters = [⟨"1Q23", .str "0", 1⟩] ∧
    jsParseFloat (.str "0") = some 0 ∧
    (JSVal.str "0" ≠ JSVal.num 0) := by
  decide

/-- C3 (amended): for every row and header sequence, `extractQuarterlyData`
appends, for each header column index `j` whose header matches the quarter
pattern and whose value `row.values[j-1]` is present and non-empty, the
triple `(headerValue, numericOrRaw, j)` — never dropped and never replaced by
zero — where `numericOrRaw` is the parsed floating-point number when
`parseFloat` yields a nonzero number and the raw value unchanged otherwise
(including when the parse result is `0`); in particular header
`["Label","1Q23","2Q23"]` with row values `[100, 200]` yields the series
`[("1Q23",100,1), ("2Q23",200,2)]`. -/
theorem c3_quarterly_extraction :
    (∀ (rd : RowData) (headers : List JSVal),
      (extractQuarterlyData rd headers).quarters = quarterSeriesSpec rd.values headers) ∧
    (extractQuarterlyData
      { rowIndex := 0, label := .str "Rev", values := [.num 100, .num 200],
        originalRow := [], isTotal := false, isSubtotal := false,
        category := "Rev", hasFormulas := false, dataTypes := [] }
      [.str "Label", .str "1Q23", .str "2Q23"]).quarters =
      [⟨"1Q23", .num 100, 1⟩, ⟨"2Q23", .num 200, 2⟩] := by
  refine ⟨fun rd headers => ?_, by decide⟩
  show extractQuarters rd.values 0 headers = quarterSeriesSpec rd.values headers
  rw [quarterSeriesSpec]
  exact extractQuarters_eq_spec rd.values headers 0

theorem cellType_mem_seven (t : CellType) :
    t ∈ [CellType.empty, .boolean, .number, .currency, .percentage, .date, .text] := by
  cases t <;> simp

/-- C4 (confirmed): `detectCellType` is total and deterministic — for every
`(value, format)` pair it returns exactly one of the seven tags (it is a Lean
function into the seven-constructor type `CellType`, so it cannot raise), and
it follows the claimed decision-table order, captured by the spec-side
transliteration `detectCellTypeSpec`. -/
theorem c4_detectCellType_decision_table :
    ∀ (v : JSVal) (fmt : Option String),
      detectCellType v fmt = detectCellTypeSpec v fmt ∧
      detectCellType v fmt ∈
        [CellType.empty, .boolean, .number, .currency, .percentage, .date, .text] := by
  intro v fmt
  refine ⟨?_, cellType_mem_seven _⟩
  cases v with
  | null => rfl
  | undefv => rfl
  | bool b => rfl
  | num q =>
    cases fmt with
    | none => rfl
    | some f =>
      by_cases hf : f = ""
      · subst hf
        simp [detectCellType, detectCellTypeSpec, strContains, listContainsSub]
      · simp [detectCellType, detectCellTypeSpec, hf]
  | str s => rfl

theorem findHeaderRowGo_eq_find? (cd : List (List CleanCell)) :
    ∀ l : List ℕ, findHeaderRowGo cd l = ((l.find? (headerRuleFires cd)).getD 0) := by
  intro l
  induction l with
  | nil => rfl
  | cons i rest ih =>
    rw [findHeaderRowGo, List.find?_cons]
    by_cases h1 : 2 ≤ quarterCellCount ((cd.get? i).getD [])
    all_goals by_cases h2 : 3 ≤ textCellCount ((cd.get? i).getD [])
    all_goals simp only [List.get?_eq_getElem?] at h1 h2
    all_goals simp [headerRuleFires, h1, h2, ih]

/-- C5 (confirmed): `findHeaderRow` examines at most the first 5 rows in
order and returns the first scanned row index on which a rule fires — rule
(a), at least 2 quarter-pattern cells, is checked before rule (b), at least 3
non-empty non-numeric string cells, and either firing stops the scan — and
returns `0` when no scanned row fires; on a grid whose first row is
`["1Q24","2Q24","3Q24"]` it returns `0`. -/
theorem c5_findHeaderRow :
    (∀ cd : List (List CleanCell),
      findHeaderRow cd = ((List.range (min 5 cd.length)).find? (headerRuleFires cd)).getD 0) ∧
    findHeaderRow (cleanData [[.str "1Q24", .str "2Q24", .str "3Q24"]] none none) = 0 := by
  exact ⟨fun cd => findHeaderRowGo_eq_find? cd _, by decide⟩

/-- C6 (confirmed): a grid of at most 100,000 cells is classified in full
with no sampling, and a larger grid triggers the sampling strategy, which
returns the top-left block of `min(floor(sqrt(100000)), rows)` sample rows by
`min(floor(100000 / maxSampleRows), cols)` sample columns (`Nat.sqrt` is the
floor square root). -/
theorem c6_sampling_trigger_and_dims :
    ∀ rows cols : ℕ,
      chooseAnalysisRange rows cols =
        if rows * cols ≤ 100000 then RangeChoice.full rows cols
        else RangeChoice.sampled (min (Nat.sqrt 100000) rows)
          (min (100000 / min (Nat.sqrt 100000) rows) cols) := by
  intro r c
  unfold chooseAnalysisRange getSmartSampledDims MAX_ANALYSIS_CELLS
  split <;> simp [min_assoc]

theorem buildRows_nil (hdrs : List JSVal) (i : ℕ) :
    buildRows hdrs i [] = ⟨[], [], [], [], []⟩ := rfl

theorem buildRows_keyRows_sub (hdrs : List JSVal) :
    ∀ (L : List (List CleanCell)) (i : ℕ) (rd : RowData),
      rd ∈ (buildRows hdrs i L).keyRows → rd ∈ (buildRows hdrs i L).dataRows := by
  intro L
  induction L with
  | nil => intro i rd h; simp [buildRows_nil] at h
  | cons row rest ih =>
    intro i rd h
    rw [buildRows] at h ⊢
    by_cases ht : jsTruthy (rowLabelOf row)
    · simp only [ht, if_true] at h ⊢
      by_cases hc : (mkRowData i row).isTotal || isKeyFinancialRow (rowLabelOf row)
      · simp only [hc, if_true] at h
        rcases List.mem_cons.mp h with h | h
        · exact List.mem_cons.mpr (Or.inl h)
        · exact List.mem_cons.mpr (Or.inr (ih (i + 1) rd h))
      · simp only [hc, if_false] at h
        exact List.mem_cons.mpr (Or.inr (ih (i + 1) rd h))
    · simp only [ht, if_false] at h ⊢
      exact ih (i + 1) rd h

theorem buildRows_totalRows_sub (hdrs : List JSVal) :
    ∀ (L : List (List CleanCell)) (i : ℕ) (rd : RowData),
      rd ∈ (buildRows hdrs i L).totalRows → rd ∈ (buildRows hdrs i L).dataRows := by
  intro L
  induction L with
  | nil => intro i rd h; simp [buildRows_nil] at h
  | cons row rest ih =>
    intro i rd h
    rw [buildRows] at h ⊢
    by_cases ht : jsTruthy (rowLabelOf row)
    · simp only [ht, if_true] at h ⊢
      by_cases hc : (mkRowData i row).isTotal
      · simp only [hc, if_true] at h
        rcases List.mem_cons.mp h with h | h
        · exact List.mem_cons.mpr (Or.inl h)
        · exact List.mem_cons.mpr (Or.inr (ih (i + 1) rd h))
      · simp only [hc, if_false] at h
        exact List.mem_cons.mpr (Or.inr (ih (i + 1) rd h))
    · simp only [ht, if_false] at h ⊢
      exact ih (i + 1) rd h

theorem buildRows_dataRows_mem (hdrs : List JSVal) :
    ∀ (L : List (List CleanCell)) (i : ℕ) (rd : RowData),
      rd ∈ (buildRows hdrs i L).dataRows →
      ∃ k row, L.get? k = some row ∧ jsTruthy (rowLabelOf row) = true ∧
        rd = mkRowData (i + k) row := by
  intro L
  induction L with
  | nil => intro i rd h; simp [buildRows_nil] at h
  | cons row rest ih =>
    intro i rd h
    rw [buildRows] at h
    by_cases ht : jsTruthy (rowLabelOf row)
    · simp only [ht, if_true] at h
      rcases List.mem_cons.mp h with h | h
      · exact ⟨0, row, rfl, ht, by simpa using h⟩
      · obtain ⟨k, row', hget, ht', heq⟩ := ih (i + 1) rd h
        refine ⟨k + 1, row', by simpa using hget, ht', ?_⟩
        rw [heq]
        congr 1
        omega
    · simp only [ht, if_false] at h
      obtain ⟨k, row', hget, ht', heq⟩ := ih (i + 1) rd h
      refine ⟨k + 1, row', by simpa using hget, ht', ?_⟩
      rw [heq]
      congr 1
      omega

theorem buildRows_mem_forward (hdrs : List JSVal) :
    ∀ (L : List (List CleanCell)) (i k : ℕ) (row : List CleanCell),
      L.get? k = some row → jsTruthy (rowLabelOf row) = true →
      (mkRowData (i + k) row ∈ (buildRows hdrs i L).dataRows ∧
       ((mkRowData (i + k) row).isTotal = true →
          mkRowData (i + k) row ∈ (buildRows hdrs i L).totalRows) ∧
       (((mkRowData (i + k) row).isTotal || isKeyFinancialRow (rowLabelOf row)) = true →
          mkRowData (i + k) row ∈ (buildRows hdrs i L).keyRows)) := by
  intro L
  induction L with
  | nil => intro i k row hget; simp at hget
  | cons r rest ih =>
    intro i k row hget htruthy
    cases k with
    | zero =>
      have hr : r = row := by simpa using hget
      subst hr
      rw [buildRows]
      simp only [htruthy, if_true, Nat.add_zero]
      refine ⟨List.mem_cons_self _ _, fun hTot => ?_, fun hKey => ?_⟩
      · simp only [hTot, if_true]
        exact List.mem_cons_self _ _
      · simp only [hKey, if_true]
        exact List.mem_cons_self _ _
    | succ k =>
      have hget' : rest.get? k = some row := by simpa using hget
      obtain ⟨hdata, htot, hkey⟩ := ih (i + 1) k row hget' htruthy
      have harith : i + 1 + k = i + (k + 1) := by omega
      rw [harith] at hdata htot hkey
      rw [buildRows]
      by_cases ht : jsTruthy (rowLabelOf r)
      · simp only [ht, if_true]
        refine ⟨List.mem_cons_of_mem _ hdata, fun hTot => ?_, fun hKey => ?_⟩
        · by_cases hc : (mkRowData i r).isTotal
          · simp only [hc, if_true]
            exact List.mem_cons_of_mem _ (htot hTot)
          · simp only [hc, if_false]
            exact htot hTot
        · by_cases hc : (mkRowData i r).isTotal || isKeyFinancialRow (rowLabelOf r)
          · simp only [hc, if_true]
            exact List.mem_cons_of_mem _ (hkey hKey)
          · simp only [hc, if_false]
            exact hkey hKey
      · simp only [ht, if_false]
        exact ⟨hdata, htot, hkey⟩

theorem cleanRows_get? (rf : Option (List (List JSVal))) (nf : Option (List (List String))) :
    ∀ (vals : List (List JSVal)) (ri k : ℕ) (row : List JSVal),
      vals.get? k = some row →
      (cleanRows rf nf ri vals).get? k = some (cleanRowCells rf nf (ri + k) 0 row) := by
  intro vals
  induction vals with
  | nil => intro ri k row h; simp at h
  | cons r rest ih =>
    intro ri k row h
    cases k with
    | zero =>
      have hr : r = row := by simpa using h
      subst hr
      simp [cleanRows]
    | succ k =>
      have h' : rest.get? k = some row := by simpa using h
      have := ih (ri + 1) k row h'
      have harith : ri + 1 + k = ri + (k + 1) := by omega
      rw [harith] at this
      simpa [cleanRows] using this

theorem buildRows_totalRows_isTotal (hdrs : List JSVal) :
    ∀ (L : List (List CleanCell)) (i : ℕ) (rd : RowData),
      rd ∈ (buildRows hdrs i L).totalRows → rd.isTotal = true := by
  intro L
  induction L with
  | nil => intro i rd h; simp [buildRows_nil] at h
  | cons row rest ih =>
    intro i rd h
    rw [buildRows] at h
    by_cases ht : jsTruthy (rowLabelOf row)
    · simp only [ht, if_true] at h
      by_cases hc : (mkRowData i row).isTotal
      · simp only [hc, if_true] at h
        rcases List.mem_cons.mp h with h | h
        · rw [h]; exact hc
        · exact ih (i + 1) rd h
      · simp only [hc, if_false] at h
        exact ih (i + 1) rd h
    · simp only [ht, if_false] at h
      exact ih (i + 1) rd h

theorem dropWhile_dropWhile (p : Char → Bool) :
    ∀ l : List Char, (l.dropWhile p).dropWhile p = l.dropWhile p := by
  intro l
  induction l with
  | nil => rfl
  | cons a l ih =>
    by_cases h : p a <;> simp [List.dropWhile_cons, h, ih]

theorem dropWhile_append_singleton (p : Char → Bool) (a : Char) (ha : p a = false) :
    ∀ ys : List Char, (ys ++ [a]).dropWhile p = ys.dropWhile p ++ [a] := by
  intro ys
  induction ys with
  | nil => simp [List.dropWhile_cons, ha]
  | cons y ys ih =>
    by_cases h : p y <;> simp [List.dropWhile_cons, h, ih]

theorem dropWhile_head_false (p : Char → Bool) :
    ∀ l : List Char, l.dropWhile p = [] ∨
      ∃ a t, l.dropWhile p = a :: t ∧ p a = false := by
  intro l
  induction l with
  | nil => exact Or.inl rfl
  | cons a l ih =>
    by_cases h : p a
    · simpa [List.dropWhile_cons, h] using ih
    · exact Or.inr ⟨a, l, by simp [List.dropWhile_cons, h], by simpa using h⟩

theorem trimL_idem (l : List Char) : trimL (trimL l) = trimL l := by
  rcases dropWhile_head_false Char.isWhitespace l with hr | ⟨a, t, hr, ha⟩
  · simp [trimL, hr]
  · have hA : (trimL l).dropWhile Char.isWhitespace = trimL l := by
      rw [trimL, hr]
      rw [show (a :: t).reverse = t.reverse ++ [a] by simp]
      rw [dropWhile_append_singleton Char.isWhitespace a ha]
      rw [show (t.reverse.dropWhile Char.isWhitespace ++ [a]).reverse =
        a :: (t.reverse.dropWhile Char.isWhitespace).reverse by simp]
      simp [List.dropWhile_cons, ha]
    rw [trimL, hA]
    rw [show trimL l = ((l.dropWhile Char.isWhitespace).reverse.dropWhile Char.isWhitespace).reverse
      from rfl]
    rw [List.reverse_reverse, dropWhile_dropWhile]

theorem trimStr_idem (s : String) : trimStr (trimStr s) = trimStr s := by
  show String.mk (trimL (trimL s.toList)) = String.mk (trimL s.toList)
  rw [trimL_idem]

/-- C2 (amended): for every grid and every row whose column-0 raw value is a
string with a non-blank trim, write `label` for the row's clean label (the
trimmed string): if `isLikelyTotalRow label` — the label (trimmed) begins
with total/sum/grand total/net/aggregate/consolidated — the materialized row
appears in `totalRows` and in `keyRows`; if instead the label matches
key-financial vocabulary (`isKeyFinancialRow`) without being a likely total,
the row appears in `keyRows` but not in `totalRows`.  The row's `category`
field, however, never resolves to `'total'/'key'/'plain'`:
`categorizeRowLabel` returns the trimmed label itself for string labels and
`'data'` for non-strings, so the materialized row's category is its trimmed
label.  In particular `"Total Revenue"` is a likely total and
`"Gross Margin %"` is key-financial and not a total. -/
theorem c2_row_categorization
    (vals : List (List JSVal)) (rf : Option (List (List JSVal)))
    (nf : Option (List (List String))) (idx : ℕ) (row : List JSVal) (s : String)
    (hrow : vals.get? idx = some row)
    (hcell : row.get? 0 = some (JSVal.str s))
    (hs : trimStr s ≠ "") :
    (isLikelyTotalRow (JSVal.str (trimStr s)) = true →
      mkRowData idx (cleanRowCells rf nf idx 0 row)
        ∈ (analyzeAdvancedTableStructure (some vals) rf nf).totalRows ∧
      mkRowData idx (cleanRowCells rf nf idx 0 row)
        ∈ (analyzeAdvancedTableStructure (some vals) rf nf).keyRows) ∧
    (isLikelyTotalRow (JSVal.str (trimStr s)) = false →
      isKeyFinancialRow (JSVal.str (trimStr s)) = true →
      mkRowData idx (cleanRowCells rf nf idx 0 row)
        ∈ (analyzeAdvancedTableStructure (some vals) rf nf).keyRows ∧
      mkRowData idx (cleanRowCells rf nf idx 0 row)
        ∉ (analyzeAdvancedTableStructure (some vals) rf nf).totalRows) ∧
    (mkRowData idx (cleanRowCells rf nf idx 0 row)).label = JSVal.str (trimStr s) ∧
    (mkRowData idx (cleanRowCells rf nf idx 0 row)).category = trimStr s ∧
    (∀ l : String, categorizeRowLabel (.str l) = trimStr l) ∧
    (∀ q : ℚ, categorizeRowLabel (.num q) = "data") ∧
    isLikelyTotalRow (.str "Total Revenue") = true ∧
    isKeyFinancialRow (.str "Gross Margin %") = true ∧
    isLikelyTotalRow (.str "Gross Margin %") = false := by
  have hne : vals.isEmpty = false := by
    cases vals with
    | nil => simp at hrow
    | cons a b => rfl
  have hcd := cleanRows_get? rf nf vals 0 idx row hrow
  rw [Nat.zero_add] at hcd
  obtain ⟨c, rest2, hshape⟩ : ∃ c rest2, row = c :: rest2 := by
    cases row with
    | nil => simp at hcell
    | cons c rest2 => exact ⟨c, rest2, rfl⟩
  have hc : c = JSVal.str s := by rw [hshape] at hcell; simpa using hcell
  subst hc
  have hlabel0 : rowLabelOf (cleanRowCells rf nf idx 0 row) = JSVal.str (trimStr s) := by
    rw [hshape]
    simp [cleanRowCells, cleanCell, rowLabelOf, unwrapCell]
  have ht : jsTruthy (rowLabelOf (cleanRowCells rf nf idx 0 row)) = true := by
    rw [hlabel0]; simp [jsTruthy, hs]
  have hfwd := buildRows_mem_forward
    ((((cleanData vals rf nf).get? (findHeaderRow (cleanData vals rf nf))).getD []).map unwrapCell)
    (cleanData vals rf nf) 0 idx (cleanRowCells rf nf idx 0 row) hcd ht
  rw [Nat.zero_add] at hfwd
  obtain ⟨hdata, htot, hkey⟩ := hfwd
  have hisTot : (mkRowData idx (cleanRowCells rf nf idx 0 row)).isTotal
      = isLikelyTotalRow (JSVal.str (trimStr s)) := by
    simp [mkRowData, hlabel0]
  have hKR : (analyzeAdvancedTableStructure (some vals) rf nf).keyRows =
      (buildRows ((((cleanData vals rf nf).get? (findHeaderRow (cleanData vals rf nf))).getD []).map
        unwrapCell) 0 (cleanData vals rf nf)).keyRows := by
    simp [analyzeAdvancedTableStructure, hne]
  have hTR : (analyzeAdvancedTableStructure (some vals) rf nf).totalRows =
      (buildRows ((((cleanData vals rf nf).get? (findHeaderRow (cleanData vals rf nf))).getD []).map
        unwrapCell) 0 (cleanData vals rf nf)).totalRows := by
    simp [analyzeAdvancedTableStructure, hne]
  refine ⟨fun hT => ⟨?_, ?_⟩, fun hnT hK => ⟨?_, ?_⟩, ?_, ?_, fun l => rfl, fun q => rfl,
    by decide, by decide, by decide⟩
  · exact hTR ▸ htot (by rw [hisTot]; exact hT)
  · refine hKR ▸ hkey ?_
    rw [hisTot, hT, Bool.true_or]
  · refine hKR ▸ hkey ?_
    rw [hisTot, hnT, hlabel0, hK, Bool.or_true]
  · intro hmem
    have hmem' := buildRows_totalRows_isTotal
      ((((cleanData vals rf nf).get? (findHeaderRow (cleanData vals rf nf))).getD []).map unwrapCell)
      (cleanData vals rf nf) 0 _ (hTR ▸ hmem)
    rw [hisTot, hnT] at hmem'
    exact Bool.false_ne_true hmem'
  · simp [mkRowData, hlabel0]
  · simp [mkRowData, hlabel0, categorizeRowLabel, trimStr_idem]

/-- Witness for C2 on the grid
`[["Total Revenue", 100], ["Gross Margin %", 35]]` at row 1: the
`"Gross Margin %"` row is key-financial and not a likely total, so the
instantiated conclusion places it in `keyRows` but not `totalRows`, with
category `"Gross Margin %"`. -/
theorem c2_row_categorization_witness :
    (isLikelyTotalRow (JSVal.str (trimStr "Gross Margin %")) = true →
      mkRowData 1 (cleanRowCells none none 1 0 [.str "Gross Margin %", .num 35])
        ∈ (analyzeAdvancedTableStructure
            (some [[.str "Total Revenue", .num 100], [.str "Gross Margin %", .num 35]])
            none none).totalRows ∧
      mkRowData 1 (cleanRowCells none none 1 0 [.str "Gross Margin %", .num 35])
        ∈ (analyzeAdvancedTableStructure
            (some [[.str "Total Revenue", .num 100], [.str "Gross Margin %", .num 35]])
            none none).keyRows) ∧
    (isLikelyTotalRow (JSVal.str (trimStr "Gross Margin %")) = false →
      isKeyFinancialRow (JSVal.str (trimStr "Gross Margin %")) = true →
      mkRowData 1 (cleanRowCells none none 1 0 [.str "Gross Margin %", .num 35])
        ∈ (analyzeAdvancedTableStructure
            (some [[.str "Total Revenue", .num 100], [.str "Gross Margin %", .num 35]])
            none none).keyRows ∧
      mkRowData 1 (cleanRowCells none none 1 0 [.str "Gross Margin %", .num 35])
        ∉ (analyzeAdvancedTableStructure
            (some [[.str "Total Revenue", .num 100], [.str "Gross Margin %", .num 35]])
            none none).totalRows) ∧
    (mkRowData 1 (cleanRowCells none none 1 0 [.str "Gross Margin %", .num 35])).label =
      JSVal.str (trimStr "Gross Margin %") ∧
    (mkRowData 1 (cleanRowCells none none 1 0 [.str "Gross Margin %", .num 35])).category =
      trimStr "Gross Margin %" ∧
    isLikelyTotalRow (.str "Total Revenue") = true ∧
    isKeyFinancialRow (.str "Gross Margin %") = true ∧
    isLikelyTotalRow (.str "Gross Margin %") = false := by
  have h := c2_row_categorization
    [[.str "Total Revenue", .num 100], [.str "Gross Margin %", .num 35]]
    none none 1 [.str "Gross Margin %", .num 35] "Gross Margin %"
    (by decide) (by decide) (by decide)
  exact ⟨h.1, h.2.1, h.2.2.1, h.2.2.2.1, h.2.2.2.2.2.2.1, h.2.2.2.2.2.2.2.1, h.2.2.2.2.2.2.2.2⟩

/-- C7 (confirmed): a row whose column-0 raw value is the empty string or a
whitespace-only string is never materialized — no entry of `dataRows`,
`keyRows` or `totalRows` carries its row index.  (`cleanData` trims the
label, the loop then skips the falsy empty label.) -/
theorem c7_blank_label_never_materialized
    (vals : List (List JSVal)) (rf : Option (List (List JSVal)))
    (nf : Option (List (List String))) (idx : ℕ) (row : List JSVal) (s : String)
    (rd : RowData)
    (hrow : vals.get? idx = some row)
    (hcell : row.get? 0 = some (JSVal.str s))
    (hblank : trimStr s = "") :
    (rd ∈ (analyzeAdvancedTableStructure (some vals) rf nf).dataRows → rd.rowIndex ≠ idx) ∧
    (rd ∈ (analyzeAdvancedTableStructure (some vals) rf nf).keyRows → rd.rowIndex ≠ idx) ∧
    (rd ∈ (analyzeAdvancedTableStructure (some vals) rf nf).totalRows → rd.rowIndex ≠ idx) := by
  have hne : vals.isEmpty = false := by
    cases vals with
    | nil => simp at hrow
    | cons a b => rfl
  have hmain : ∀ (hdrs : List JSVal) (rd' : RowData),
      rd' ∈ (buildRows hdrs 0 (cleanData vals rf nf)).dataRows → rd'.rowIndex ≠ idx := by
    intro hdrs rd' hmem hidx
    obtain ⟨k, row', hget, ht, heq⟩ :=
      buildRows_dataRows_mem hdrs (cleanData vals rf nf) 0 rd' hmem
    have hk : rd'.rowIndex = k := by rw [heq]; simp [mkRowData]
    have hkidx : k = idx := by omega
    subst hkidx
    have hcd := cleanRows_get? rf nf vals 0 k row hrow
    rw [Nat.zero_add] at hcd
    have hrow' : row' = cleanRowCells rf nf k 0 row := by
      have h2 : (cleanData vals rf nf).get? k = some (cleanRowCells rf nf k 0 row) := hcd
      rw [hget] at h2
      exact Option.some.inj h2
    cases row with
    | nil => simp at hcell
    | cons c rest2 =>
      have hc : c = JSVal.str s := by simpa using hcell
      subst hc
      rw [hrow'] at ht
      simp [cleanRowCells, cleanCell, rowLabelOf, unwrapCell, jsTruthy, hblank] at ht
  have hDR : (analyzeAdvancedTableStructure (some vals) rf nf).dataRows =
      (buildRows ((((cleanData vals rf nf).get? (findHeaderRow (cleanData vals rf nf))).getD []).map
        unwrapCell) 0 (cleanData vals rf nf)).dataRows := by
    simp [analyzeAdvancedTableStructure, hne]
  have hKR : (analyzeAdvancedTableStructure (some vals) rf nf).keyRows =
      (buildRows ((((cleanData vals rf nf).get? (findHeaderRow (cleanData vals rf nf))).getD []).map
        unwrapCell) 0 (cleanData vals rf nf)).keyRows := by
    simp [analyzeAdvancedTableStructure, hne]
  have hTR : (analyzeAdvancedTableStructure (some vals) rf nf).totalRows =
      (buildRows ((((cleanData vals rf nf).get? (findHeaderRow (cleanData vals rf nf))).getD []).map
        unwrapCell) 0 (cleanData vals rf nf)).totalRows := by
    simp [analyzeAdvancedTableStructure, hne]
  refine ⟨fun hmem => ?_, fun hmem => ?_, fun hmem => ?_⟩
  · exact hmain _ rd (hDR ▸ hmem)
  · exact hmain _ rd (buildRows_keyRows_sub _ _ 0 rd (hKR ▸ hmem))
  · exact hmain _ rd (buildRows_totalRows_sub _ _ 0 rd (hTR ▸ hmem))

/-- Witness for C7 on the grid `[["   "], ["Revenue"]]`: the whitespace-only
labelled row 0 is materialized nowhere; instantiated at the surviving
`"Revenue"` row record, whose index is 1. -/
theorem c7_blank_label_never_materialized_witness :
    ((⟨1, .str "Revenue", [], [.plain "Revenue"], false, false, "Revenue", false, [.text]⟩ : RowData)
        ∈ (analyzeAdvancedTableStructure (some [[.str "   "], [.str "Revenue"]]) none none).dataRows →
      (⟨1, .str "Revenue", [], [.plain "Revenue"], false, false, "Revenue", false, [.text]⟩ : RowData).rowIndex ≠ 0) ∧
    ((⟨1, .str "Revenue", [], [.plain "Revenue"], false, false, "Revenue", false, [.text]⟩ : RowData)
        ∈ (analyzeAdvancedTableStructure (some [[.str "   "], [.str "Revenue"]]) none none).keyRows →
      (⟨1, .str "Revenue", [], [.plain "Revenue"], false, false, "Revenue", false, [.text]⟩ : RowData).rowIndex ≠ 0) ∧
    ((⟨1, .str "Revenue", [], [.plain "Revenue"], false, false, "Revenue", false, [.text]⟩ : RowData)
        ∈ (analyzeAdvancedTableStructure (some [[.str "   "], [.str "Revenue"]]) none none).totalRows →
      (⟨1, .str "Revenue", [], [.plain "Revenue"], false, false, "Revenue", false, [.text]⟩ : RowData).rowIndex ≠ 0) :=
  c7_blank_label_never_materialized [[.str "   "], [.str "Revenue"]] none none 0
    [.str "   "] "   " _ (by decide) (by decide) (by decide)

/-- C8 (confirmed): an absent (`null`/`undefined`) or zero-row values grid
yields the explicit `'empty'` result variant — empty headers, no data rows,
no key rows — and, being a total Lean function, the analysis cannot raise. -/
theorem c8_empty_grid_variant :
    ∀ (rf : Option (List (List JSVal))) (nf : Option (List (List String))),
      (analyzeAdvancedTableStructure none rf nf = emptyTableResult ∧
       analyzeAdvancedTableStructure (some []) rf nf = emptyTableResult) ∧
      emptyTableResult.rtype = "empty" ∧
      emptyTableResult.headers = ([] : List JSVal) ∧
      emptyTableResult.dataRows = ([] : List RowData) ∧
      emptyTableResult.keyRows = ([] : List RowData) := by
  intro rf nf
  exact ⟨⟨rfl, rfl⟩, rfl, rfl, rfl, rfl⟩

/-- C9 (confirmed): the row-processing loop starts at row 0 and does not skip
the detected header row — when the clean row at the detected header index has
a non-empty string label, the `rowData` built from it appears in `dataRows`,
in `totalRows` when its label is a likely total, and in `keyRows` when it is
a total or key-financial row. -/
theorem c9_header_row_not_excluded
    (vals : List (List JSVal)) (rf : Option (List (List JSVal)))
    (nf : Option (List (List String))) (s : String)
    (hlabel : rowLabelOf (((cleanData vals rf nf).get?
      (findHeaderRow (cleanData vals rf nf))).getD []) = JSVal.str s)
    (hs : s ≠ "") :
    mkRowData (findHeaderRow (cleanData vals rf nf))
        (((cleanData vals rf nf).get? (findHeaderRow (cleanData vals rf nf))).getD [])
      ∈ (analyzeAdvancedTableStructure (some vals) rf nf).dataRows ∧
    ((mkRowData (findHeaderRow (cleanData vals rf nf))
        (((cleanData vals rf nf).get? (findHeaderRow (cleanData vals rf nf))).getD [])).isTotal = true →
      mkRowData (findHeaderRow (cleanData vals rf nf))
          (((cleanData vals rf nf).get? (findHeaderRow (cleanData vals rf nf))).getD [])
        ∈ (analyzeAdvancedTableStructure (some vals) rf nf).totalRows) ∧
    (((mkRowData (findHeaderRow (cleanData vals rf nf))
        (((cleanData vals rf nf).get? (findHeaderRow (cleanData vals rf nf))).getD [])).isTotal ||
        isKeyFinancialRow (JSVal.str s)) = true →
      mkRowData (findHeaderRow (cleanData vals rf nf))
          (((cleanData vals rf nf).get? (findHeaderRow (cleanData vals rf nf))).getD [])
        ∈ (analyzeAdvancedTableStructure (some vals) rf nf).keyRows) := by
  cases hsome : (cleanData vals rf nf).get? (findHeaderRow (cleanData vals rf nf)) with
  | none => rw [hsome] at hlabel; simp [rowLabelOf] at hlabel
  | some row0 =>
    have hne : vals.isEmpty = false := by
      cases vals with
      | nil => simp [cleanData, cleanRows] at hsome
      | cons a b => rfl
    have hlabel' : rowLabelOf row0 = JSVal.str s := by
      rw [hsome] at hlabel; simpa using hlabel
    have ht : jsTruthy (rowLabelOf row0) = true := by
      rw [hlabel']; simp [jsTruthy, hs]
    have hfwd := buildRows_mem_forward
      ((((cleanData vals rf nf).get? (findHeaderRow (cleanData vals rf nf))).getD []).map unwrapCell)
      (cleanData vals rf nf) 0 (findHeaderRow (cleanData vals rf nf)) row0 hsome ht
    rw [Nat.zero_add] at hfwd
    obtain ⟨hdata, htot, hkey⟩ := hfwd
    have hDR : (analyzeAdvancedTableStructure (some vals) rf nf).dataRows =
        (buildRows ((((cleanData vals rf nf).get? (findHeaderRow (cleanData vals rf nf))).getD []).map
          unwrapCell) 0 (cleanData vals rf nf)).dataRows := by
      simp [analyzeAdvancedTableStructure, hne]
    have hKR : (analyzeAdvancedTableStructure (some vals) rf nf).keyRows =
        (buildRows ((((cleanData vals rf nf).get? (findHeaderRow (cleanData vals rf nf))).getD []).map
          unwrapCell) 0 (cleanData vals rf nf)).keyRows := by
      simp [analyzeAdvancedTableStructure, hne]
    have hTR : (analyzeAdvancedTableStructure (some vals) rf nf).totalRows =
        (buildRows ((((cleanData vals rf nf).get? (findHeaderRow (cleanData vals rf nf))).getD []).map
          unwrapCell) 0 (cleanData vals rf nf)).totalRows := by
      simp [analyzeAdvancedTableStructure, hne]
    simp only [hsome, Option.getD_some] at hDR hKR hTR hdata htot hkey ⊢
    refine ⟨hDR ▸ hdata, fun hTot => ?_, fun hKey => ?_⟩
    · exact hTR ▸ htot hTot
    · rw [← hlabel'] at hKey
      exact hKR ▸ hkey hKey

/-- Witness for C9 on the grid `[["Revenue","abc","xyz"]]`: the detected
header row 0 has label `"Revenue"`, is materialized in `dataRows`, and —
being key-financial but not a total — lands in `keyRows`. -/
theorem c9_header_row_not_excluded_witness :
    mkRowData (findHeaderRow (cleanData [[.str "Revenue", .str "abc", .str "xyz"]] none none))
        (((cleanData [[.str "Revenue", .str "abc", .str "xyz"]] none none).get?
          (findHeaderRow (cleanData [[.str "Revenue", .str "abc", .str "xyz"]] none none))).getD [])
      ∈ (analyzeAdvancedTableStructure (some [[.str "Revenue", .str "abc", .str "xyz"]]) none none).dataRows ∧
    ((mkRowData (findHeaderRow (cleanData [[.str "Revenue", .str "abc", .str "xyz"]] none none))
        (((cleanData [[.str "Revenue", .str "abc", .str "xyz"]] none none).get?
          (findHeaderRow (cleanData [[.str "Revenue", .str "abc", .str "xyz"]] none none))).getD [])).isTotal = true →
      mkRowData (findHeaderRow (cleanData [[.str "Revenue", .str "abc", .str "xyz"]] none none))
          (((cleanData [[.str "Revenue", .str "abc", .str "xyz"]] none none).get?
            (findHeaderRow (cleanData [[.str "Revenue", .str "abc", .str "xyz"]] none none))).getD [])
        ∈ (analyzeAdvancedTableStructure (some [[.str "Revenue", .str "abc", .str "xyz"]]) none none).totalRows) ∧
    (((mkRowData (findHeaderRow (cleanData [[.str "Revenue", .str "abc", .str "xyz"]] none none))
        (((cleanData [[.str "Revenue", .str "abc", .str "xyz"]] none none).get?
          (findHeaderRow (cleanData [[.str "Revenue", .str "abc", .str "xyz"]] none none))).getD [])).isTotal ||
        isKeyFinancialRow (JSVal.str "Revenue")) = true →
      mkRowData (findHeaderRow (cleanData [[.str "Revenue", .str "abc", .str "xyz"]] none none))
          (((cleanData [[.str "Revenue", .str "abc", .str "xyz"]] none none).get?
            (findHeaderRow (cleanData [[.str "Revenue", .str "abc", .str "xyz"]] none none))).getD [])
        ∈ (analyzeAdvancedTableStructure (some [[.str "Revenue", .str "abc", .str "xyz"]]) none none).keyRows) :=
  c9_header_row_not_excluded [[.str "Revenue", .str "abc", .str "xyz"]] none none "Revenue"
    (by decide) (by decide)

theorem charCode_roundtrip (r : ℕ) (h : r < 26) :
    (Char.ofNat (65 + r)).toNat = 65 + r := by
  interval_cases r <;> decide

theorem getColumnNumber_go (fuel : ℕ) :
    ∀ n : ℕ, n ≤ fuel →
      List.foldl (fun acc c => acc * 26 + (c.toNat - 64)) 0 (getColumnLetterGo fuel n) = n := by
  induction fuel with
  | zero =>
    intro n hn
    have h0 : n = 0 := Nat.le_zero.mp hn
    subst h0
    rfl
  | succ fuel ih =>
    intro n hn
    cases n with
    | zero => rfl
    | succ m =>
      rw [getColumnLetterGo, List.foldl_append,
        ih (m / 26) (by have := Nat.div_le_self m 26; omega)]
      simp only [List.foldl]
      rw [charCode_roundtrip (m % 26) (Nat.mod_lt m (by norm_num))]
      have hdm := Nat.div_add_mod m 26
      omega

/-- C10 (confirmed): `getColumnLetter` and `getColumnNumber` are mutually
inverse on positive integers: for every `n ≥ 1`,
`getColumnNumber (getColumnLetter n) = n`. -/
theorem c10_column_letter_number_inverse (n : ℕ) (_h : 1 ≤ n) :
    getColumnNumber (getColumnLetter n) = n := by
  show List.foldl (fun acc c => acc * 26 + (c.toNat - 64)) 0 (getColumnLetterGo n n) = n
  exact getColumnNumber_go n n (Nat.le_refl n)

/-- Witness for C10 at `n = 28`: `getColumnLetter 28 = "AB"` and back. -/
theorem c10_column_letter_number_inverse_witness :
    1 ≤ 28 ∧ getColumnNumber (getColumnLetter 28) = 28 :=
  ⟨by decide, c10_column_letter_number_inverse 28 (by decide)⟩
